import Mathlib

/-!
Verification development for the `optimxtra` URL-addressed object store
(`src/optimxtra/storage/datastore.py`).  Strings are modelled as lists of
characters, byte payloads as lists of naturals, and the filesystem as an
association list from pathnames to file contents.  Collaborator modules that
the repository imports but whose sources are not under `src/`
(`optimxtra.opts`, `optimxtra.storage.database`, `optimxtra.storage.serialization`,
`optimxtra.utils.exceptions`, `optimxtra.utils.bunch`) are modelled from the
specification, each marked `Modelled from the spec:` in its doc comment.
-/

/-- Strings of the Python code, modelled as lists of characters. -/
abbrev Str := List Char

/-- Byte payloads, modelled as lists of naturals. -/
abbrev Bytes := List Nat

/-- Failure conditions surfaced by the store.  `invalidInput` is the
`InvalidInput` exception raised by `get_filepath`; `notFound` the
`FileNotFoundError` raised by `open` on a missing path; `typeMismatch` the
condition raised by `validate_type`; `permission` an OS permission error
during subtree removal; `valueError` the `ValueError` that
`urllib.parse.urlsplit` raises on an unbalanced-bracket netloc, which
`get_filepath` does not catch.  Exception messages are elided. -/
inductive Err where
  | invalidInput
  | notFound
  | typeMismatch
  | permission
  | valueError
deriving DecidableEq, Repr

/-- Characters allowed in a URL scheme by `urllib.parse` (letters, digits,
`+`, `-`, `.`). -/
def isSchemeChar (c : Char) : Bool :=
  c.isAlphanum || c = '+' || c = '-' || c = '.'

/-- Split a list at the first occurrence of `c`: returns the parts before and
after that occurrence, or `none` when `c` does not occur. -/
def splitOnFirst (c : Char) : Str → Option (Str × Str)
  | [] => none
  | x :: xs =>
    if x = c then some ([], xs)
    else (splitOnFirst c xs).map (fun p => (x :: p.1, p.2))

/-- Take the longest head segment free of the stop characters, returning it
together with the rest of the list (which begins with a stop character when
nonempty). -/
def takeUntilAny (stops : List Char) (s : Str) : Str × Str :=
  (s.takeWhile (fun c => ¬ stops.contains c), s.dropWhile (fun c => ¬ stops.contains c))

/-- CPython `urlsplit` left-strips WHATWG C0 control characters and space
(code points up to 0x20) from the URL before parsing. -/
def lstripControl : Str → Str
  | [] => []
  | c :: cs => if c.toNat ≤ 0x20 then lstripControl cs else c :: cs

/-- CPython `urlsplit` removes every tab, CR and LF from the URL
(`_UNSAFE_URL_BYTES_TO_REMOVE`) before parsing. -/
def removeTabCrLf : Str → Str
  | [] => []
  | c :: cs =>
    if c = '\t' ∨ c = '\r' ∨ c = '\n' then removeTabCrLf cs
    else c :: removeTabCrLf cs

/-- The URL preprocessing of CPython `urlsplit`: left-strip control
characters and space, then remove tab, CR and LF everywhere. -/
def sanitizeUrl (url : Str) : Str := removeTabCrLf (lstripControl url)

/-- Result of URL parsing: the fields of `urllib.parse.ParseResult` that the
code reads (`scheme`, `netloc`, `path`, `query`, `fragment`). -/
structure UrlParts where
  scheme : Str
  netloc : Str
  path : Str
  query : Str
  fragment : Str
deriving DecidableEq, Repr

/-- The scheme is the lowercased text before the first `:` when that text is
a nonempty run of scheme characters starting with a letter; otherwise the
scheme is empty and the URL is left whole. -/
def schemeSplit (url : Str) : Str × Str :=
  match splitOnFirst ':' url with
  | none => ([], url)
  | some (bef, aft) =>
    match bef with
    | [] => ([], url)
    | c :: cs =>
      if c.isAlpha ∧ (c :: cs).all isSchemeChar then ((c :: cs).map Char.toLower, aft)
      else ([], url)

/-- After the scheme, a literal `//` introduces the netloc, which extends to
the next `/`, `?` or `#`.  A netloc containing `[` without `]`, or `]`
without `[`, makes `urlsplit` raise `ValueError("Invalid IPv6 URL")`.  The
bracketed-host validation added in CPython 3.11 (which can also raise for
balanced brackets) is not modelled; no theorem here quantifies over inputs
whose netloc contains a bracket. -/
def netlocSplitE (rest : Str) : Except Err (Str × Str) :=
  if rest.take 2 = ['/', '/'] then
    let (netloc, r) := takeUntilAny ['/', '?', '#'] (rest.drop 2)
    if ('[' ∈ netloc ∧ ']' ∉ netloc) ∨ (']' ∈ netloc ∧ '[' ∉ netloc) then
      Except.error Err.valueError
    else Except.ok (netloc, r)
  else Except.ok ([], rest)

/-- The fragment starts at the first `#`. -/
def fragSplit (rest : Str) : Str × Str :=
  match splitOnFirst '#' rest with
  | some (a, b) => (a, b)
  | none => (rest, [])

/-- The query starts at the first `?` of what remains. -/
def querySplit (rest : Str) : Str × Str :=
  match splitOnFirst '?' rest with
  | some (a, b) => (a, b)
  | none => (rest, [])

/-- Embedding of CPython `urllib.parse.urlsplit`/`urlparse`: the URL is
sanitized (control/space left-strip, tab/CR/LF removal), the scheme split
off, the netloc extracted (raising ValueError on unbalanced brackets), the
fragment split at the first `#` and the query at the first `?` of what
remains.  The scheme `file` is not in `urllib.parse.uses_params`, so no
`;params` split applies to the paths this code reads. -/
def urlparseModel (url_raw : Str) : Except Err UrlParts :=
  let url := sanitizeUrl url_raw
  let (scheme, r1) := schemeSplit url
  match netlocSplitE r1 with
  | Except.error e => Except.error e
  | Except.ok (netloc, r2) =>
    let (r3, fragment) := fragSplit r2
    let (path, query) := querySplit r3
    Except.ok ⟨scheme, netloc, path, query, fragment⟩

/-- Whether `s` starts with `pre` (Python `str.startswith`). -/
def startsWith (s pre : Str) : Bool := s.take pre.length = pre

/-- The path separator `os.sep`, modelled as POSIX `/`. -/
def osSep : Str := ['/']

/-- The literal `"file:///"` checked by `get_filepath`. -/
def fileSlashes : Str := ['f', 'i', 'l', 'e', ':', '/', '/', '/']

/-- The scheme string `"file"`. -/
def fileScheme : Str := ['f', 'i', 'l', 'e']

/-- Embedding of `DataStoreIO.get_filepath`: parse the URL (a ValueError
from `urlparse` propagates uncaught); on scheme `file`, require the raw
string to start with `file:///` and return `url.path[1:]`; any other scheme
is `InvalidInput`. -/
def DS.get_filepath (url_unparsed : Str) : Except Err Str :=
  match urlparseModel url_unparsed with
  | Except.error e => Except.error e
  | Except.ok url =>
    if url.scheme = fileScheme then
      if ¬ startsWith url_unparsed fileSlashes then Except.error Err.invalidInput
      else Except.ok (url.path.drop 1)
    else Except.error Err.invalidInput

example : DS.get_filepath "file:///a/b".data = Except.ok "a/b".data := by rfl
example : DS.get_filepath "http://x".data = Except.error Err.invalidInput := by rfl
example : DS.get_filepath "file://a/b".data = Except.error Err.invalidInput := by rfl
example : DS.get_filepath "FILE:///a/b".data = Except.error Err.invalidInput := by rfl
example : DS.get_filepath "http://[x".data = Except.error Err.valueError := by rfl
example : DS.get_filepath "file:///a\tb".data = Except.ok "ab".data := by rfl

/-- Modelled from the spec: the Configuration Provider of `optimxtra.opts`
(module not under `src/`).  `datastore_url` is the value of the key
`datastore.url`; `default_rpp` the value of the key
`datastore.relative_path_prefix`.  The provider is read-only state, so
repeated lookups within one operation sequence are stable. -/
structure Options where
  datastore_url : Str
  default_rpp : Str
deriving DecidableEq, Repr

/-- Modelled from the spec: `options().default_if_null(value, key)` returns
`value` unchanged if non-null, otherwise the configured value of `key`
(here the default relative path prefix). -/
def Options.default_if_null (o : Options) (v : Option Str) : Str :=
  v.getD o.default_rpp

/-- Structured values stored through the codec: primitives, sequences and
string-keyed mappings. -/
inductive Value where
  | prim (n : Nat)
  | seq (xs : List Value)
  | map (kvs : List (Str × Value))

/-- Shapes a caller can require of a decoded payload (`expected_type` in the
Python code: the classes `dict`, `list`, or a scalar type). -/
inductive Shape where
  | dict
  | list
  | scalar
deriving DecidableEq, Repr

/-- The shape of a value: mappings are `dict`, sequences `list`, primitives
`scalar`. -/
def shapeOf : Value → Shape
  | Value.map _ => Shape.dict
  | Value.seq _ => Shape.list
  | Value.prim _ => Shape.scalar

/-- Modelled from the spec: `validate_type` of `optimxtra.utils.exceptions`
(module not under `src/`): fails with TypeMismatch when the decoded value's
shape does not match the expected shape. -/
def validate_type (v : Value) (t : Shape) : Except Err Unit :=
  if shapeOf v = t then Except.ok () else Except.error Err.typeMismatch

/-- A stored file: its byte contents, plus a flag marking files whose removal
raises an OS permission error (used to model `shutil.rmtree` error
handling; files created by `write` are never locked). -/
structure File where
  data : Bytes
  locked : Bool
deriving DecidableEq, Repr

/-- State of one store: the configuration provider view, the filesystem
(files and directories), and the identifier-generator stream.  The
generator is modelled from the spec (`next_uuid` of
`optimxtra.storage.database`, not under `src/`): `gen ctr` is the hex token
of the next fresh identifier, and `ctr` advances by one per draw. -/
structure DSState where
  opts : Options
  fs : List (Str × File)
  dirs : List Str
  gen : Nat → Str
  ctr : Nat

/-- Look a pathname up in the filesystem: the most recently written entry
wins. -/
def fsLookup : List (Str × File) → Str → Option File
  | [], _ => none
  | (k, f) :: rest, k' => if k = k' then some f else fsLookup rest k'

/-- Whether pathname `k` lies strictly inside directory `d`. -/
def underDir (k d : Str) : Bool := startsWith k (d ++ osSep)

/-- Entries `shutil.rmtree(d, ignore_errors=True)` keeps: everything
outside `d`, plus files inside `d` whose removal fails (the error being
ignored, removal continues past them). -/
def rmtreeFs (fs : List (Str × File)) (d : Str) : List (Str × File) :=
  fs.filter (fun kv => ! (underDir kv.1 d && ! kv.2.locked))

/-- Directory entries after `shutil.rmtree(d, ignore_errors=True)`: `d` and
everything inside it are removed. -/
def rmtreeDirs (dirs : List Str) (d : Str) : List Str :=
  dirs.filter (fun x => ! (decide (x = d) || underDir x d))

/-- Whether removing directory `d` hits an OS error other than NotFound
(a locked file inside the subtree). -/
def rmtreeHitsError (fs : List (Str × File)) (d : Str) : Bool :=
  fs.any (fun kv => underDir kv.1 d && kv.2.locked)

/-- Embedding of `DataStoreIO.get_pathname_from_url`: resolve the configured
root URL and the object URL through `get_filepath` and join them with
`os.sep`. -/
def DS.get_pathname_from_url (o : Options) (url : Str) : Except Err Str := do
  let pathdir ← DS.get_filepath o.datastore_url
  let fp ← DS.get_filepath url
  return pathdir ++ osSep ++ fp

/-- Embedding of `DataStoreIO.get_next_pathname_url`: default the relative
path prefix from configuration, resolve the root, `os.makedirs` the prefix
directory, draw a fresh identifier, and return the pathname, the URL
`file:///` + prefix + `/` + token, and the updated state. -/
def DS.get_next_pathname_url (s : DSState) (rpp : Option Str) :
    Except Err (Str × Str × DSState) := do
  let p := s.opts.default_if_null rpp
  let root ← DS.get_filepath s.opts.datastore_url
  let pathdir := root ++ osSep ++ p
  let s₁ : DSState := { s with dirs := pathdir :: s.dirs }
  let basename := s₁.gen s₁.ctr
  let s₂ : DSState := { s₁ with ctr := s₁.ctr + 1 }
  let pathname := pathdir ++ osSep ++ basename
  let url := fileSlashes ++ p ++ osSep ++ basename
  return (pathname, url, s₂)

/-- Embedding of `DataStoreIO.write`: compute the next pathname and URL,
write the full payload at the pathname (truncating any existing file), and
return the handle URL with the new state. -/
def DS.write (s : DSState) (data : Bytes) (rpp : Option Str) :
    Except Err (Str × DSState) := do
  let (pathname, url, s₂) ← DS.get_next_pathname_url s rpp
  return (url, { s₂ with fs := (pathname, ⟨data, false⟩) :: s₂.fs })

/-- Embedding of `DataStoreIO.serialize_write` for a codec `ser`:
serialize the object and `write` the bytes. -/
def DS.serialize_write (ser : Value → Bytes) (s : DSState) (obj : Value)
    (rpp : Option Str) : Except Err (Str × DSState) :=
  DS.write s (ser obj) rpp

/-- Embedding of `DataStoreIO.read`: resolve the handle URL to a pathname and
return the full stored contents; a missing path is the filesystem's
NotFound. -/
def DS.read (o : Options) (fs : List (Str × File)) (url : Str) :
    Except Err Bytes := do
  let pathname ← DS.get_pathname_from_url o url
  match fsLookup fs pathname with
  | some f => return f.data
  | none => Except.error Err.notFound

/-- Embedding of `DataStoreIO.read_deserialize` for a codec `de`: read the
bytes, deserialize them, and when an expected type is given validate the
decoded value's shape against it. -/
def DS.read_deserialize (de : Bytes → Except Err Value) (o : Options)
    (fs : List (Str × File)) (url : Str) (expected : Option Shape) :
    Except Err Value := do
  let data ← DS.read o fs url
  let obj ← de data
  match expected with
  | some t => do
    let _ ← validate_type obj t
    return obj
  | none => return obj

/-- Embedding of `DataStoreIO.delete`: resolve the configured root, join the
relative path prefix, and `shutil.rmtree` the directory with
`ignore_errors=True` (so removal never raises; only a malformed root URL
can fail, inside `get_filepath`). -/
def DS.delete (s : DSState) (rpp : Str) : Except Err DSState := do
  let root ← DS.get_filepath s.opts.datastore_url
  let pathdir := root ++ osSep ++ rpp
  return { s with fs := rmtreeFs s.fs pathdir, dirs := rmtreeDirs s.dirs pathdir }

/-- Embedding of `DataStore.from_url` for a codec `de`: `read_deserialize`
with `expected_type=dict`, then wrap the mapping in the container. -/
def DataStore.from_url (de : Bytes → Except Err Value) (o : Options)
    (fs : List (Str × File)) (url : Str) : Except Err (List (Str × Value)) := do
  let obj ← DS.read_deserialize de o fs url (some Shape.dict)
  match obj with
  | Value.map kvs => return kvs
  | _ => Except.error Err.typeMismatch

/-! ### Helper lemmas -/

theorem startsWith_iff {s pre : Str} : startsWith s pre = true ↔ ∃ r, s = pre ++ r := by
  constructor
  · intro h
    refine ⟨s.drop pre.length, ?_⟩
    have ht : s.take pre.length = pre := by
      simpa [startsWith] using h
    conv_lhs => rw [← List.take_append_drop pre.length s]
    rw [ht]
  · rintro ⟨r, rfl⟩
    simp [startsWith, List.take_left]

theorem startsWith_append (a b : Str) : startsWith (a ++ b) a = true :=
  startsWith_iff.mpr ⟨b, rfl⟩

theorem splitOnFirst_eq_none {c : Char} {s : Str} (h : c ∉ s) :
    splitOnFirst c s = none := by
  induction s with
  | nil => rfl
  | cons x xs ih =>
    have hxc : x ≠ c := by
      intro he
      exact h (he ▸ List.mem_cons_self x xs)
    have hxs : c ∉ xs := fun hm => h (List.mem_cons_of_mem x hm)
    simp [splitOnFirst, hxc, ih hxs]

theorem schemeSplit_file (x : Str) :
    schemeSplit (fileSlashes ++ x) = (fileScheme, '/' :: '/' :: '/' :: x) := by
  rfl

theorem netlocSplitE_slashes (x : Str) :
    netlocSplitE ('/' :: '/' :: '/' :: x) = Except.ok ([], '/' :: x) := by
  rfl

theorem fragSplit_no_hash {x : Str} (hh : '#' ∉ x) :
    fragSplit ('/' :: x) = ('/' :: x, []) := by
  simp [fragSplit, splitOnFirst, splitOnFirst_eq_none hh]

theorem querySplit_no_query {x : Str} (hq : '?' ∉ x) :
    querySplit ('/' :: x) = ('/' :: x, []) := by
  simp [querySplit, splitOnFirst, splitOnFirst_eq_none hq]

theorem removeTabCrLf_eq_self : ∀ {x : Str}, '\t' ∉ x → '\r' ∉ x →
    '\n' ∉ x → removeTabCrLf x = x := by
  intro x
  induction x with
  | nil => intro _ _ _; rfl
  | cons c cs ih =>
    intro ht hr hn
    have hc : ¬ (c = '\t' ∨ c = '\r' ∨ c = '\n') := by
      rintro (h | h | h)
      · exact ht (by rw [← h]; exact List.mem_cons_self c cs)
      · exact hr (by rw [← h]; exact List.mem_cons_self c cs)
      · exact hn (by rw [← h]; exact List.mem_cons_self c cs)
    rw [removeTabCrLf, if_neg hc,
      ih (fun hm => ht (List.mem_cons_of_mem c hm))
        (fun hm => hr (List.mem_cons_of_mem c hm))
        (fun hm => hn (List.mem_cons_of_mem c hm))]

/-- Sanitizing a constructed `file:///` URL is the identity when the rest
holds no tab, CR or LF (the head `f` is not control or space, so the
left-strip is void). -/
theorem sanitizeUrl_file (x : Str) (ht : '\t' ∉ x) (hr : '\r' ∉ x)
    (hn : '\n' ∉ x) : sanitizeUrl (fileSlashes ++ x) = fileSlashes ++ x := by
  have hx := removeTabCrLf_eq_self ht hr hn
  simp [sanitizeUrl, lstripControl, removeTabCrLf, fileSlashes, hx]

/-- Parsing a constructed `file:///` URL: scheme `file`, empty netloc, path
`/` + rest, no query, no fragment, provided the rest holds no `?`, `#`,
tab, CR or LF. -/
theorem urlparseModel_file (x : Str) (hq : '?' ∉ x) (hh : '#' ∉ x)
    (ht : '\t' ∉ x) (hr : '\r' ∉ x) (hn : '\n' ∉ x) :
    urlparseModel (fileSlashes ++ x)
      = Except.ok ⟨fileScheme, [], '/' :: x, [], []⟩ := by
  simp [urlparseModel, sanitizeUrl_file x ht hr hn, schemeSplit_file,
    netlocSplitE_slashes, fragSplit_no_hash hh, querySplit_no_query hq]

theorem get_filepath_file (x : Str) (hq : '?' ∉ x) (hh : '#' ∉ x)
    (ht : '\t' ∉ x) (hr : '\r' ∉ x) (hn : '\n' ∉ x) :
    DS.get_filepath (fileSlashes ++ x) = Except.ok x := by
  simp [DS.get_filepath, urlparseModel_file x hq hh ht hr hn,
    startsWith_append]

/-- The state after a successful `write`: the prefix directory registered,
one identifier drawn, and the payload stored at `Root/prefix/token`. -/
def postWrite (s : DSState) (data : Bytes) (rpp : Option Str) (root : Str) :
    DSState :=
  { s with
    dirs := (root ++ osSep ++ s.opts.default_if_null rpp) :: s.dirs,
    ctr := s.ctr + 1,
    fs := (root ++ osSep ++ s.opts.default_if_null rpp ++ osSep ++ s.gen s.ctr,
           ⟨data, false⟩) :: s.fs }

/-- Explicit form of a successful `write`: the URL returned and the
post-write state. -/
theorem write_ok (s : DSState) (data : Bytes) (rpp : Option Str) (root : Str)
    (hroot : DS.get_filepath s.opts.datastore_url = Except.ok root) :
    DS.write s data rpp =
      Except.ok (fileSlashes ++ s.opts.default_if_null rpp ++ osSep ++ s.gen s.ctr,
        postWrite s data rpp root) := by
  simp [DS.write, DS.get_next_pathname_url, hroot, Bind.bind, Except.bind,
    pure, Except.pure, postWrite]

/-- Resolving a URL against a valid root joins the two resolved paths. -/
theorem get_pathname_from_url_ok {o : Options} {url root fp : Str}
    (hroot : DS.get_filepath o.datastore_url = Except.ok root)
    (hurl : DS.get_filepath url = Except.ok fp) :
    DS.get_pathname_from_url o url = Except.ok (root ++ osSep ++ fp) := by
  simp [DS.get_pathname_from_url, hroot, hurl, Bind.bind, Except.bind, pure,
    Except.pure]

theorem fsLookup_cons_self (k : Str) (f : File) (fs : List (Str × File)) :
    fsLookup ((k, f) :: fs) k = some f := by
  simp [fsLookup]

theorem fsLookup_cons_ne {k k' : Str} (f : File) (fs : List (Str × File))
    (h : k' ≠ k) : fsLookup ((k', f) :: fs) k = fsLookup fs k := by
  simp [fsLookup, h]

theorem fsLookup_filter_none {P : Str × File → Bool} {fs : List (Str × File)}
    {k : Str} (h : ∀ f : File, (k, f) ∈ fs → P (k, f) = false) :
    fsLookup (fs.filter P) k = none := by
  induction fs with
  | nil => rfl
  | cons kv rest ih =>
    have ih' := ih (fun f hm => h f (List.mem_cons_of_mem kv hm))
    by_cases hk : kv.1 = k
    · have hP : P kv = false := by
        have hmem : (k, kv.2) ∈ kv :: rest := by
          rw [← hk]
          exact List.mem_cons_self kv rest
        have := h kv.2 hmem
        rwa [← hk] at this
      simpa [List.filter_cons, hP] using ih'
    · by_cases hP : P kv = true
      · simpa [List.filter_cons, hP, fsLookup, hk] using ih'
      · simpa [List.filter_cons, hP] using ih'

/-- Slash-free strings followed by a slash delimit uniquely: equal
continuations force equal heads. -/
theorem slash_prefix_eq : ∀ (p q u v : Str), '/' ∉ p → '/' ∉ q →
    p ++ '/' :: u = q ++ '/' :: v → p = q := by
  intro p
  induction p with
  | nil =>
    intro q u v _ hq h
    cases q with
    | nil => rfl
    | cons b q' =>
      exfalso
      have hb : b = '/' := by
        simpa using congrArg (fun l => l.head?) h.symm
      exact hq (hb ▸ List.mem_cons_self b q')
  | cons a p' ih =>
    intro q u v hp hq h
    cases q with
    | nil =>
      exfalso
      have ha : a = '/' := by
        simpa using congrArg (fun l => l.head?) h
      exact hp (ha ▸ List.mem_cons_self a p')
    | cons b q' =>
      have h1 : a = b ∧ p' ++ '/' :: u = q' ++ '/' :: v := by
        simpa using h
      have hp' : '/' ∉ p' := fun hm => hp (List.mem_cons_of_mem a hm)
      have hq' : '/' ∉ q' := fun hm => hq (List.mem_cons_of_mem b hm)
      rw [h1.1, ih q' u v hp' hq' h1.2]

/-- A stored object of a sibling prefix is not inside the deleted prefix
directory. -/
theorem not_underDir_sibling (root p q t : Str) (hp : '/' ∉ p) (hq : '/' ∉ q)
    (hne : p ≠ q) :
    underDir (root ++ osSep ++ q ++ osSep ++ t) (root ++ osSep ++ p) = false := by
  by_contra hcon
  have htrue : underDir (root ++ osSep ++ q ++ osSep ++ t) (root ++ osSep ++ p) = true := by
    revert hcon
    cases underDir (root ++ osSep ++ q ++ osSep ++ t) (root ++ osSep ++ p) <;> simp
  rcases startsWith_iff.mp (by simpa [underDir] using htrue) with ⟨r, hr⟩
  have hr' : root ++ ('/' :: (q ++ '/' :: t)) = root ++ ('/' :: (p ++ '/' :: r)) := by
    simpa [osSep, List.append_assoc] using hr
  have hqp : q ++ '/' :: t = p ++ '/' :: r := by
    have := List.append_cancel_left hr'
    simpa using this
  exact hne (slash_prefix_eq q p t r hq hp hqp).symm

/-- An object written under the deleted prefix is inside the deleted
directory. -/
theorem underDir_self_token (root p t : Str) :
    underDir (root ++ osSep ++ p ++ osSep ++ t) (root ++ osSep ++ p) = true := by
  have : root ++ osSep ++ p ++ osSep ++ t = (root ++ osSep ++ p ++ osSep) ++ t := by
    simp [List.append_assoc]
  rw [underDir, this]
  exact startsWith_append _ _

theorem not_mem_join {c : Char} {p t : Str} (hc : c ≠ '/') (hp : c ∉ p)
    (ht : c ∉ t) : c ∉ p ++ osSep ++ t := by
  intro hm
  rcases List.mem_append.mp hm with h1 | h1
  · rcases List.mem_append.mp h1 with h2 | h2
    · exact hp h2
    · exact hc (by simpa [osSep] using h2)
  · exact ht h1

/-- A read against a resolvable URL whose pathname is absent fails with the
filesystem's NotFound. -/
theorem read_none {o : Options} {fs : List (Str × File)} {url pathname : Str}
    (h : DS.get_pathname_from_url o url = Except.ok pathname)
    (hl : fsLookup fs pathname = none) :
    DS.read o fs url = Except.error Err.notFound := by
  simp [DS.read, h, hl, Bind.bind, Except.bind]

/-- A read against a resolvable URL whose pathname is present returns the
full stored contents. -/
theorem read_some {o : Options} {fs : List (Str × File)} {url pathname : Str}
    {f : File} (h : DS.get_pathname_from_url o url = Except.ok pathname)
    (hl : fsLookup fs pathname = some f) :
    DS.read o fs url = Except.ok f.data := by
  simp [DS.read, h, hl, Bind.bind, Except.bind, pure, Except.pure]

/-- Explicit form of `delete` under a valid root: always a success, the
subtree filtered out of the filesystem. -/
theorem delete_ok (s : DSState) (rpp root : Str)
    (hroot : DS.get_filepath s.opts.datastore_url = Except.ok root) :
    DS.delete s rpp = Except.ok
      { s with fs := rmtreeFs s.fs (root ++ osSep ++ rpp),
               dirs := rmtreeDirs s.dirs (root ++ osSep ++ rpp) } := by
  simp [DS.delete, hroot, Bind.bind, Except.bind, pure, Except.pure]

/-! ### Concrete states for witnesses -/

/-- A concrete configuration: root `file:///tmp/store`, default prefix
`runs` (the concrete scenario of the specification). -/
def exOpts : Options := ⟨"file:///tmp/store".data, "runs".data⟩

/-- A concrete identifier stream of 32-hex-character tokens. -/
def exGen : Nat → Str := fun n =>
  if n = 0 then "0123456789abcdef0123456789abcdef".data
  else "ffeeddccbbaa99887766554433221100".data

/-- A fresh store over an empty filesystem. -/
def exState : DSState := ⟨exOpts, [], [], exGen, 0⟩

/-- The state after one `write` of payload `[1, 2]` on `exState`. -/
def exWritten : DSState :=
  { exState with
    dirs := ["tmp/store/runs".data],
    ctr := 1,
    fs := [("tmp/store/runs/0123456789abcdef0123456789abcdef".data,
            ⟨[1, 2], false⟩)] }

/-- The state after a second `write` of payload `[1, 2]` on `exWritten`. -/
def exWritten₂ : DSState :=
  { exWritten with
    dirs := "tmp/store/runs".data :: exWritten.dirs,
    ctr := 2,
    fs := ("tmp/store/runs/ffeeddccbbaa99887766554433221100".data,
           ⟨[1, 2], false⟩) :: exWritten.fs }

/-! ### Claims -/

/-- Counterexample to C2 as stated: `get_filepath "http://[x"` raises the
ValueError of `urlparse`'s unbalanced-bracket netloc check, not
InvalidInput, and so does the file-scheme `"file://[x"` — the resolver does
not turn every malformed input into InvalidInput. -/
theorem C2_counterexample :
    DS.get_filepath ("http://[x".data) = Except.error Err.valueError
    ∧ DS.get_filepath ("http://[x".data) ≠ Except.error Err.invalidInput
    ∧ DS.get_filepath ("file://[x".data) = Except.error Err.valueError := by
  have h1 : DS.get_filepath ("http://[x".data) = Except.error Err.valueError := by
    rfl
  refine ⟨h1, ?_, by rfl⟩
  intro h
  exact absurd (Except.error.inj (h1.symm.trans h)) (by decide)

/-- C2 (amended): `get_filepath "file:///a/b"` succeeds with path `a/b`;
`get_filepath "http://x"` raises InvalidInput; `get_filepath "file://a/b"`
raises InvalidInput; every input that parses with a non-`file` scheme and a
bracket-free netloc raises InvalidInput; an input on which `urlparse`
itself raises ValueError (unbalanced-bracket netloc) propagates that
ValueError instead of InvalidInput; and no input lacking the literal
`file:///` start ever silently succeeds. -/
theorem C2_resolver_correctness :
    DS.get_filepath ("file:///a/b".data) = Except.ok ("a/b".data)
    ∧ DS.get_filepath ("http://x".data) = Except.error Err.invalidInput
    ∧ DS.get_filepath ("file://a/b".data) = Except.error Err.invalidInput
    ∧ (∀ (u : Str) (parts : UrlParts), urlparseModel u = Except.ok parts →
        '[' ∉ parts.netloc → ']' ∉ parts.netloc →
        parts.scheme ≠ fileScheme →
        DS.get_filepath u = Except.error Err.invalidInput)
    ∧ (∀ u : Str, urlparseModel u = Except.error Err.valueError →
        DS.get_filepath u = Except.error Err.valueError)
    ∧ (∀ u fp : Str, startsWith u fileSlashes = false →
        DS.get_filepath u ≠ Except.ok fp) := by
  refine ⟨by rfl, by rfl, by rfl, ?_, ?_, ?_⟩
  · intro u parts hparse _ _ hs
    simp [DS.get_filepath, hparse, hs]
  · intro u hparse
    simp [DS.get_filepath, hparse]
  · intro u fp hfalse
    rcases hparse : urlparseModel u with e | parts
    · simp [DS.get_filepath, hparse]
    · by_cases hs : parts.scheme = fileScheme
      · simp [DS.get_filepath, hparse, hs, hfalse]
      · simp [DS.get_filepath, hparse, hs]

/-- Witness for the amended C2 at concrete inputs: an `ftp`-scheme URL
fails InvalidInput, an unbalanced-bracket URL propagates ValueError, and a
bare word never yields a path. -/
theorem C2_resolver_correctness_witness :
    DS.get_filepath ("ftp://h/a".data) = Except.error Err.invalidInput
    ∧ DS.get_filepath ("ws://[y".data) = Except.error Err.valueError
    ∧ DS.get_filepath ("notaurl".data) ≠ Except.ok ("notaurl".data) :=
  ⟨C2_resolver_correctness.2.2.2.1 ("ftp://h/a".data)
      ⟨"ftp".data, "h".data, "/a".data, [], []⟩ (by rfl) (by decide)
      (by decide) (by decide),
   C2_resolver_correctness.2.2.2.2.1 ("ws://[y".data) (by rfl),
   C2_resolver_correctness.2.2.2.2.2 ("notaurl".data) ("notaurl".data)
     (by decide)⟩

/-- Counterexample to C10 as stated: at prefix `a` + tab + `b` (allowed by
the claim's provisos, which exclude only `/` in the token, `?` and `#`),
`urlparse` removes the tab, so `get_filepath` returns `ab/c` rather than
the prefix and token joined. -/
theorem C10_counterexample :
    DS.get_filepath (fileSlashes ++ "a\tb".data ++ osSep ++ "c".data)
      = Except.ok ("ab/c".data)
    ∧ DS.get_filepath (fileSlashes ++ "a\tb".data ++ osSep ++ "c".data)
      ≠ Except.ok ("a\tb".data ++ osSep ++ "c".data) := by
  have h1 : DS.get_filepath (fileSlashes ++ "a\tb".data ++ osSep ++ "c".data)
      = Except.ok ("ab/c".data) := by rfl
  refine ⟨h1, ?_⟩
  intro h
  exact absurd (Except.ok.inj (h1.symm.trans h)) (by decide)

/-- C10 (amended): the resolver inverts the URL constructor for a prefix
`p` and token `t` free of `?`, `#`, tab, CR and LF, with no path separator
in `t`: `get_filepath ("file:///" + p + "/" + t)` returns exactly
`p + "/" + t`; consequently `get_pathname_from_url` applied to the URL
returned by `write` yields exactly the pathname `write` stored the bytes
at.  The tab/CR/LF proviso is forced by `urlparse`'s removal of those
characters. -/
theorem C10_resolver_inverts_url (p t : Str) (hsep : '/' ∉ t)
    (hqp : '?' ∉ p) (hhp : '#' ∉ p) (hqt : '?' ∉ t) (hht : '#' ∉ t)
    (htp : '\t' ∉ p) (hrp : '\r' ∉ p) (hnp : '\n' ∉ p)
    (htt : '\t' ∉ t) (hrt : '\r' ∉ t) (hnt : '\n' ∉ t) :
    DS.get_filepath (fileSlashes ++ p ++ osSep ++ t) = Except.ok (p ++ osSep ++ t)
    ∧ ∀ (s : DSState) (data : Bytes) (rpp : Option Str) (root url : Str)
        (s' : DSState),
        s.opts.default_if_null rpp = p →
        s.gen s.ctr = t →
        DS.get_filepath s.opts.datastore_url = Except.ok root →
        DS.write s data rpp = Except.ok (url, s') →
        DS.get_pathname_from_url s'.opts url
            = Except.ok (root ++ osSep ++ p ++ osSep ++ t)
        ∧ fsLookup s'.fs (root ++ osSep ++ p ++ osSep ++ t)
            = some ⟨data, false⟩ := by
  have hq : '?' ∉ p ++ osSep ++ t := not_mem_join (by decide) hqp hqt
  have hh : '#' ∉ p ++ osSep ++ t := not_mem_join (by decide) hhp hht
  have ht : '\t' ∉ p ++ osSep ++ t := not_mem_join (by decide) htp htt
  have hr : '\r' ∉ p ++ osSep ++ t := not_mem_join (by decide) hrp hrt
  have hn : '\n' ∉ p ++ osSep ++ t := not_mem_join (by decide) hnp hnt
  have hfp : DS.get_filepath (fileSlashes ++ p ++ osSep ++ t)
      = Except.ok (p ++ osSep ++ t) := by
    rw [show fileSlashes ++ p ++ osSep ++ t = fileSlashes ++ (p ++ osSep ++ t) by
      simp [List.append_assoc]]
    exact get_filepath_file (p ++ osSep ++ t) hq hh ht hr hn
  refine ⟨hfp, ?_⟩
  intro s data rpp root url s' hpdef htdef hroot hw
  rw [write_ok s data rpp root hroot] at hw
  injection hw with h
  injection h with hurl hs
  subst hurl
  subst hs
  subst hpdef
  subst htdef
  constructor
  · have hres := get_pathname_from_url_ok (o := s.opts) hroot hfp
    simpa [postWrite, List.append_assoc] using hres
  · exact fsLookup_cons_self _ _ _

/-- Witness for the amended C10 at prefix `runs` and a 32-hex token. -/
theorem C10_resolver_inverts_url_witness :
    DS.get_filepath
        (fileSlashes ++ "runs".data ++ osSep
          ++ "0123456789abcdef0123456789abcdef".data)
      = Except.ok ("runs".data ++ osSep
          ++ "0123456789abcdef0123456789abcdef".data) :=
  (C10_resolver_inverts_url ("runs".data)
    ("0123456789abcdef0123456789abcdef".data)
    (by decide) (by decide) (by decide) (by decide) (by decide)
    (by decide) (by decide) (by decide)
    (by decide) (by decide) (by decide)).1

/-- C4: `write` stores the payload at pathname `Root/prefix/token` and
returns a handle whose URL is exactly `file:///` + prefix + `/` + token
(with the default prefix `runs` and a 32-hex-character token this gives
`file:///runs/<32-hex-chars>`). -/
theorem C4_url_pathname_form (s : DSState) (data : Bytes) (rpp : Option Str)
    (root url : Str) (s' : DSState)
    (hroot : DS.get_filepath s.opts.datastore_url = Except.ok root)
    (hw : DS.write s data rpp = Except.ok (url, s')) :
    url = fileSlashes ++ s.opts.default_if_null rpp ++ osSep ++ s.gen s.ctr
    ∧ fsLookup s'.fs
        (root ++ osSep ++ s.opts.default_if_null rpp ++ osSep ++ s.gen s.ctr)
      = some ⟨data, false⟩ := by
  rw [write_ok s data rpp root hroot] at hw
  injection hw with h
  injection h with hurl hs
  subst hurl
  subst hs
  exact ⟨rfl, fsLookup_cons_self _ _ _⟩

/-- Witness for C4 on the concrete fresh store: the returned URL is
`file:///runs/<32-hex-chars>` and the payload lands at
`tmp/store/runs/<32-hex-chars>`. -/
theorem C4_url_pathname_form_witness :
    "file:///runs/0123456789abcdef0123456789abcdef".data
        = fileSlashes ++ exState.opts.default_if_null none ++ osSep
            ++ exState.gen exState.ctr
    ∧ fsLookup exWritten.fs
        ("tmp/store".data ++ osSep ++ exState.opts.default_if_null none
          ++ osSep ++ exState.gen exState.ctr)
      = some ⟨[1, 2], false⟩ :=
  C4_url_pathname_form exState [1, 2] none ("tmp/store".data)
    ("file:///runs/0123456789abcdef0123456789abcdef".data) exWritten
    (by rfl) (by rfl)

/-- C1 (amended): round trip.  For every value representable by the codec,
if the codec round-trips the value, the configured root is stable (the
same `Options` view throughout), and the effective prefix and generated
token contain none of the characters the URL parser treats specially
(`?`, `#`, tab, CR, LF), reading back the object written by
`serialize_write` and validating it against the value's shape returns the
value itself.  The character proviso is forced: a `?` in the prefix makes
the resolver truncate the read path (see the counterexample). -/
theorem C1_round_trip (ser : Value → Bytes) (de : Bytes → Except Err Value)
    (s : DSState) (v : Value) (rpp : Option Str) (root url : Str)
    (s' : DSState)
    (hcodec : de (ser v) = Except.ok v)
    (hroot : DS.get_filepath s.opts.datastore_url = Except.ok root)
    (hqp : '?' ∉ s.opts.default_if_null rpp)
    (hhp : '#' ∉ s.opts.default_if_null rpp)
    (htp : '\t' ∉ s.opts.default_if_null rpp)
    (hrp : '\r' ∉ s.opts.default_if_null rpp)
    (hnp : '\n' ∉ s.opts.default_if_null rpp)
    (hqt : '?' ∉ s.gen s.ctr) (hht : '#' ∉ s.gen s.ctr)
    (htt : '\t' ∉ s.gen s.ctr) (hrt : '\r' ∉ s.gen s.ctr)
    (hnt : '\n' ∉ s.gen s.ctr)
    (hw : DS.serialize_write ser s v rpp = Except.ok (url, s')) :
    DS.read_deserialize de s'.opts s'.fs url (some (shapeOf v))
      = Except.ok v := by
  rw [DS.serialize_write, write_ok s (ser v) rpp root hroot] at hw
  injection hw with h
  injection h with hurl hs
  subst hurl
  subst hs
  have hq : '?' ∉ s.opts.default_if_null rpp ++ osSep ++ s.gen s.ctr :=
    not_mem_join (by decide) hqp hqt
  have hh : '#' ∉ s.opts.default_if_null rpp ++ osSep ++ s.gen s.ctr :=
    not_mem_join (by decide) hhp hht
  have ht : '\t' ∉ s.opts.default_if_null rpp ++ osSep ++ s.gen s.ctr :=
    not_mem_join (by decide) htp htt
  have hr : '\r' ∉ s.opts.default_if_null rpp ++ osSep ++ s.gen s.ctr :=
    not_mem_join (by decide) hrp hrt
  have hn : '\n' ∉ s.opts.default_if_null rpp ++ osSep ++ s.gen s.ctr :=
    not_mem_join (by decide) hnp hnt
  have hfp : DS.get_filepath
      (fileSlashes ++ s.opts.default_if_null rpp ++ osSep ++ s.gen s.ctr)
      = Except.ok (s.opts.default_if_null rpp ++ osSep ++ s.gen s.ctr) := by
    rw [show fileSlashes ++ s.opts.default_if_null rpp ++ osSep ++ s.gen s.ctr
        = fileSlashes
          ++ (s.opts.default_if_null rpp ++ osSep ++ s.gen s.ctr) by
      simp [List.append_assoc]]
    exact get_filepath_file _ hq hh ht hr hn
  have hpath := get_pathname_from_url_ok (o := s.opts) hroot hfp
  have hpath' : DS.get_pathname_from_url s.opts
      (fileSlashes ++ (s.opts.default_if_null rpp ++ (osSep ++ s.gen s.ctr)))
      = Except.ok
        (root ++ (osSep ++ (s.opts.default_if_null rpp
          ++ (osSep ++ s.gen s.ctr)))) := by
    simpa [List.append_assoc] using hpath
  simp [DS.read_deserialize, DS.read, postWrite, hpath', fsLookup_cons_self,
    hcodec, validate_type, Bind.bind, Except.bind, pure, Except.pure]

/-- Modelled from the spec: a concrete instance of the pluggable
Serialization Codec of `optimxtra.storage.serialization` (module not under
`src/`): a self-describing tagged encoding of values, used to witness the
codec round-trip hypothesis. -/
def encodeVal : Value → Bytes
  | Value.prim n => [0, n]
  | Value.seq xs => 1 :: xs.length :: encodeList xs
  | Value.map kvs => 2 :: kvs.length :: encodeKVs kvs
where
  encodeList : List Value → Bytes
    | [] => []
    | v :: vs => encodeVal v ++ encodeList vs
  encodeKVs : List (Str × Value) → Bytes
    | [] => []
    | (k, v) :: kvs => k.length :: k.map Char.toNat ++ encodeVal v ++ encodeKVs kvs

/-- Fuel-bounded decoder for `encodeVal`, returning the decoded value and
the remaining bytes. -/
def decodeVal : Nat → Bytes → Except Err (Value × Bytes)
  | _, 0 :: n :: rest => Except.ok (Value.prim n, rest)
  | fuel + 1, 1 :: len :: rest =>
    (decodeVals fuel len rest).map (fun p => (Value.seq p.1, p.2))
  | fuel + 1, 2 :: len :: rest =>
    (decodeKVPairs fuel len rest).map (fun p => (Value.map p.1, p.2))
  | _, _ => Except.error Err.invalidInput
where
  decodeVals : Nat → Nat → Bytes → Except Err (List Value × Bytes)
    | _, 0, rest => Except.ok ([], rest)
    | fuel, len + 1, rest => do
      let (v, rest₁) ← decodeVal fuel rest
      let (vs, rest₂) ← decodeVals fuel len rest₁
      return (v :: vs, rest₂)
  decodeKVPairs : Nat → Nat → Bytes → Except Err (List (Str × Value) × Bytes)
    | _, 0, rest => Except.ok ([], rest)
    | fuel, len + 1, klen :: rest => do
      let kbytes := rest.take klen
      let rest₀ := rest.drop klen
      let (v, rest₁) ← decodeVal fuel rest₀
      let (kvs, rest₂) ← decodeKVPairs fuel len rest₁
      return ((kbytes.map Char.ofNat, v) :: kvs, rest₂)
    | _, _ + 1, [] => Except.error Err.invalidInput

/-- The deserializer paired with `encodeVal`: decode with fuel the length of
the input. -/
def decodeTop (bs : Bytes) : Except Err Value :=
  (decodeVal bs.length bs).map (fun p => p.1)

/-- The spec's concrete scenario value, the mapping with one entry
`a` mapped to `1`. -/
def exV : Value := Value.map [("a".data, Value.prim 1)]

theorem decode_encode_exV : decodeTop (encodeVal exV) = Except.ok exV := by
  simp [decodeTop, encodeVal, encodeVal.encodeList, encodeVal.encodeKVs,
    decodeVal, decodeVal.decodeVals, decodeVal.decodeKVPairs,
    Bind.bind, Except.bind, pure, Except.pure, exV, Except.map]

/-- The state after `serialize_write` of `exV` on `exState`. -/
def exSerWritten : DSState :=
  { exState with
    dirs := ["tmp/store/runs".data],
    ctr := 1,
    fs := [("tmp/store/runs/0123456789abcdef0123456789abcdef".data,
            ⟨encodeVal exV, false⟩)] }

/-- Witness for the amended C1: the spec's scenario on the concrete store:
write `{"a": 1}` through the codec, read it back with expected mapping
shape, and recover the same value. -/
theorem C1_round_trip_witness :
    DS.read_deserialize decodeTop exSerWritten.opts exSerWritten.fs
        ("file:///runs/0123456789abcdef0123456789abcdef".data)
        (some (shapeOf exV))
      = Except.ok exV :=
  C1_round_trip encodeVal decodeTop exState exV none ("tmp/store".data)
    ("file:///runs/0123456789abcdef0123456789abcdef".data) exSerWritten
    decode_encode_exV
    (by rfl) (by decide) (by decide) (by decide) (by decide) (by decide)
    (by decide) (by decide) (by decide) (by decide) (by decide) (by rfl)

/-- The state after `serialize_write` of `exV` under the prefix `a?b`. -/
def exBadW : DSState :=
  postWrite exState (encodeVal exV) (some ("a?b".data)) ("tmp/store".data)

/-- Counterexample to C1 as stated: with prefix `a?b` (the claim quantifies
over every prefix), the codec round-trips, the root is valid, and the
write succeeds — but reading the returned URL back fails NotFound, because
`urlparse` query-splits the URL at `?` and the resolver opens
`tmp/store/a` instead of the stored pathname. -/
theorem C1_counterexample :
    decodeTop (encodeVal exV) = Except.ok exV
    ∧ DS.get_filepath exState.opts.datastore_url
        = Except.ok ("tmp/store".data)
    ∧ DS.serialize_write encodeVal exState exV (some ("a?b".data))
        = Except.ok
          (("file:///a?b/0123456789abcdef0123456789abcdef".data), exBadW)
    ∧ DS.read_deserialize decodeTop exBadW.opts exBadW.fs
        ("file:///a?b/0123456789abcdef0123456789abcdef".data)
        (some (shapeOf exV))
      = Except.error Err.notFound
    ∧ DS.read_deserialize decodeTop exBadW.opts exBadW.fs
        ("file:///a?b/0123456789abcdef0123456789abcdef".data)
        (some (shapeOf exV))
      ≠ Except.ok exV := by
  have h4 : DS.read_deserialize decodeTop exBadW.opts exBadW.fs
      ("file:///a?b/0123456789abcdef0123456789abcdef".data)
      (some (shapeOf exV))
      = Except.error Err.notFound := by rfl
  refine ⟨decode_encode_exV, by rfl, by rfl, h4, ?_⟩
  intro h
  rw [h4] at h
  exact Except.noConfusion h

/-- C3: two sequential `write` calls with the same prefix and the same
payload return distinct URLs, provided the identifier generator yields
distinct tokens on the two draws; the store itself performs no uniqueness
check, so the second `write` cannot fail. -/
theorem C3_uniqueness (s : DSState) (data : Bytes) (rpp : Option Str)
    (root url₁ url₂ : Str) (s₁ s₂ : DSState)
    (hroot : DS.get_filepath s.opts.datastore_url = Except.ok root)
    (hdistinct : s.gen s.ctr ≠ s.gen (s.ctr + 1))
    (hw₁ : DS.write s data rpp = Except.ok (url₁, s₁))
    (hw₂ : DS.write s₁ data rpp = Except.ok (url₂, s₂)) :
    url₁ ≠ url₂ ∧ ∀ e : Err, DS.write s₁ data rpp ≠ Except.error e := by
  rw [write_ok s data rpp root hroot] at hw₁
  injection hw₁ with h₁
  injection h₁ with hu₁ hs₁
  subst hu₁
  subst hs₁
  rw [write_ok (postWrite s data rpp root) data rpp root hroot] at hw₂
  injection hw₂ with h₂
  injection h₂ with hu₂ hs₂
  constructor
  · intro he
    rw [← hu₂] at he
    apply hdistinct
    simpa [postWrite, List.append_assoc] using he
  · intro e he
    rw [write_ok (postWrite s data rpp root) data rpp root hroot] at he
    exact Except.noConfusion he

/-- Witness for C3 on the concrete fresh store: the two URLs differ. -/
theorem C3_uniqueness_witness :
    "file:///runs/0123456789abcdef0123456789abcdef".data
      ≠ "file:///runs/ffeeddccbbaa99887766554433221100".data
    ∧ ∀ e : Err, DS.write exWritten [1, 2] none ≠ Except.error e :=
  C3_uniqueness exState [1, 2] none ("tmp/store".data)
    ("file:///runs/0123456789abcdef0123456789abcdef".data)
    ("file:///runs/ffeeddccbbaa99887766554433221100".data)
    exWritten exWritten₂ (by rfl) (by decide) (by rfl) (by rfl)

/-- C5: for a handle whose URL resolves to a pathname absent from the
filesystem, `read` fails with the filesystem's NotFound; for an existing
pathname, `read` returns the full stored byte contents. -/
theorem C5_read_propagates (o : Options) (fs : List (Str × File))
    (url pathname : Str)
    (hpath : DS.get_pathname_from_url o url = Except.ok pathname) :
    (fsLookup fs pathname = none →
      DS.read o fs url = Except.error Err.notFound)
    ∧ ∀ f : File, fsLookup fs pathname = some f →
        DS.read o fs url = Except.ok f.data :=
  ⟨fun hl => read_none hpath hl, fun _ hl => read_some hpath hl⟩

/-- Witness for C5: on the concrete store, reading `file:///runs/x` from an
empty filesystem fails NotFound, and reading the written object returns its
bytes. -/
theorem C5_read_propagates_witness :
    DS.read exOpts [] ("file:///runs/x".data) = Except.error Err.notFound
    ∧ DS.read exOpts exWritten.fs
        ("file:///runs/0123456789abcdef0123456789abcdef".data)
      = Except.ok [1, 2] :=
  ⟨(C5_read_propagates exOpts [] ("file:///runs/x".data)
      ("tmp/store/runs/x".data) (by rfl)).1 (by rfl),
   (C5_read_propagates exOpts exWritten.fs
      ("file:///runs/0123456789abcdef0123456789abcdef".data)
      ("tmp/store/runs/0123456789abcdef0123456789abcdef".data) (by rfl)).2
     ⟨[1, 2], false⟩ (by rfl)⟩

/-- C6: a stored payload that decodes to a non-mapping value, read back with
expected mapping shape (`read_deserialize` with `expected_type=dict`, as
`DataStore.from_url` does), fails with TypeMismatch; `from_url` asserts
mapping shape before wrapping, and wraps exactly the decoded mapping when
the shape matches. -/
theorem C6_type_check (de : Bytes → Except Err Value) (o : Options)
    (fs : List (Str × File)) (url : Str) (data : Bytes) (v : Value)
    (hread : DS.read o fs url = Except.ok data)
    (hde : de data = Except.ok v) :
    (shapeOf v ≠ Shape.dict →
      DS.read_deserialize de o fs url (some Shape.dict)
          = Except.error Err.typeMismatch
      ∧ DataStore.from_url de o fs url = Except.error Err.typeMismatch)
    ∧ ∀ kvs, v = Value.map kvs →
        DataStore.from_url de o fs url = Except.ok kvs := by
  constructor
  · intro hshape
    have h1 : DS.read_deserialize de o fs url (some Shape.dict)
        = Except.error Err.typeMismatch := by
      simp [DS.read_deserialize, hread, hde, validate_type, hshape,
        Bind.bind, Except.bind, pure, Except.pure]
    exact ⟨h1, by simp [DataStore.from_url, h1, Bind.bind, Except.bind]⟩
  · rintro kvs rfl
    simp [DataStore.from_url, DS.read_deserialize, hread, hde, validate_type,
      shapeOf, Bind.bind, Except.bind, pure, Except.pure]

/-- The empty sequence value, decoded from a stored sequence payload. -/
def exVSeq : Value := Value.seq []

theorem decode_encode_exVSeq : decodeTop (encodeVal exVSeq) = Except.ok exVSeq := by
  simp [decodeTop, encodeVal, encodeVal.encodeList, decodeVal,
    decodeVal.decodeVals, Bind.bind, Except.bind, pure, Except.pure, exVSeq,
    Except.map]

/-- A filesystem holding one stored sequence payload at `runs/x`. -/
def exSeqFs : List (Str × File) :=
  [("tmp/store/runs/x".data, ⟨encodeVal exVSeq, false⟩)]

/-- Witness for C6: reading the stored sequence back with expected mapping
shape fails TypeMismatch, both through `read_deserialize` and `from_url`. -/
theorem C6_type_check_witness :
    DS.read_deserialize decodeTop exOpts exSeqFs ("file:///runs/x".data)
        (some Shape.dict) = Except.error Err.typeMismatch
    ∧ DataStore.from_url decodeTop exOpts exSeqFs ("file:///runs/x".data)
        = Except.error Err.typeMismatch :=
  (C6_type_check decodeTop exOpts exSeqFs ("file:///runs/x".data)
    (encodeVal exVSeq) exVSeq (by rfl) decode_encode_exVSeq).1 (by decide)

/-- C7: `delete` of a prefix whose directory does not exist succeeds and
leaves the filesystem unchanged; under a valid root `delete` never raises,
and deleting the same prefix twice in a row succeeds with the second call a
no-op. -/
theorem C7_idempotent_delete (s : DSState) (rpp root : Str)
    (hroot : DS.get_filepath s.opts.datastore_url = Except.ok root) :
    (∀ e : Err, DS.delete s rpp ≠ Except.error e)
    ∧ ((∀ kv ∈ s.fs, underDir kv.1 (root ++ osSep ++ rpp) = false) →
       (∀ d ∈ s.dirs, d ≠ root ++ osSep ++ rpp
          ∧ underDir d (root ++ osSep ++ rpp) = false) →
       DS.delete s rpp = Except.ok s)
    ∧ ∀ s' : DSState, DS.delete s rpp = Except.ok s' →
        DS.delete s' rpp = Except.ok s' := by
  refine ⟨?_, ?_, ?_⟩
  · intro e he
    rw [delete_ok s rpp root hroot] at he
    exact Except.noConfusion he
  · intro hfs hdirs
    have h1 : rmtreeFs s.fs (root ++ osSep ++ rpp) = s.fs := by
      rw [rmtreeFs, List.filter_eq_self]
      intro kv hkv
      have h := hfs kv hkv
      rw [List.append_assoc] at h
      simp [h]
    have h2 : rmtreeDirs s.dirs (root ++ osSep ++ rpp) = s.dirs := by
      rw [rmtreeDirs, List.filter_eq_self]
      intro d hd
      have hd1 := (hdirs d hd).1
      have hd2 := (hdirs d hd).2
      rw [List.append_assoc] at hd1 hd2
      simp [hd1, hd2]
    rw [delete_ok s rpp root hroot, h1, h2]
  · intro s' h
    rw [delete_ok s rpp root hroot] at h
    injection h with h
    subst h
    rw [delete_ok { s with
        fs := rmtreeFs s.fs (root ++ osSep ++ rpp),
        dirs := rmtreeDirs s.dirs (root ++ osSep ++ rpp) } rpp root hroot]
    have h1 : rmtreeFs (rmtreeFs s.fs (root ++ osSep ++ rpp))
        (root ++ osSep ++ rpp) = rmtreeFs s.fs (root ++ osSep ++ rpp) := by
      simp [rmtreeFs, List.filter_filter]
    have h2 : rmtreeDirs (rmtreeDirs s.dirs (root ++ osSep ++ rpp))
        (root ++ osSep ++ rpp) = rmtreeDirs s.dirs (root ++ osSep ++ rpp) := by
      simp [rmtreeDirs, List.filter_filter]
    rw [h1, h2]

/-- Witness for C7 on the concrete fresh store (no directory exists yet):
delete of `runs` succeeds and changes nothing, twice in a row. -/
theorem C7_idempotent_delete_witness :
    (∀ e : Err, DS.delete exState ("runs".data) ≠ Except.error e)
    ∧ DS.delete exState ("runs".data) = Except.ok exState :=
  ⟨(C7_idempotent_delete exState ("runs".data) ("tmp/store".data) (by rfl)).1,
   (C7_idempotent_delete exState ("runs".data) ("tmp/store".data) (by rfl)).2.1
     (by simp [exState]) (by simp [exState])⟩

/-- Lookup results after deleting prefix `p` from a filesystem holding one
fresh object under `p`, one fresh object under a sibling `q`, and older
unlocked entries: the object under `p` is gone, the sibling object
remains. -/
theorem fsLookup_after_delete (s0fs : List (Str × File)) (root p q t₁ t₂ : Str)
    (data₁ data₂ : Bytes)
    (hsp : '/' ∉ p) (hsq : '/' ∉ q) (hne : p ≠ q)
    (hclean : ∀ kv ∈ s0fs, kv.2.locked = false) :
    fsLookup
      (rmtreeFs ((root ++ osSep ++ q ++ osSep ++ t₂, ⟨data₂, false⟩)
        :: (root ++ osSep ++ p ++ osSep ++ t₁, ⟨data₁, false⟩) :: s0fs)
        (root ++ osSep ++ p))
      (root ++ osSep ++ p ++ osSep ++ t₁) = none
    ∧ fsLookup
      (rmtreeFs ((root ++ osSep ++ q ++ osSep ++ t₂, ⟨data₂, false⟩)
        :: (root ++ osSep ++ p ++ osSep ++ t₁, ⟨data₁, false⟩) :: s0fs)
        (root ++ osSep ++ p))
      (root ++ osSep ++ q ++ osSep ++ t₂) = some ⟨data₂, false⟩ := by
  have hu₂ : underDir (root ++ osSep ++ q ++ osSep ++ t₂)
      (root ++ osSep ++ p) = false :=
    not_underDir_sibling root p q t₂ hsp hsq hne
  have hu₁ : underDir (root ++ osSep ++ p ++ osSep ++ t₁)
      (root ++ osSep ++ p) = true :=
    underDir_self_token root p t₁
  have hkne : root ++ osSep ++ q ++ osSep ++ t₂
      ≠ root ++ osSep ++ p ++ osSep ++ t₁ := by
    intro h
    rw [h, hu₁] at hu₂
    exact Bool.noConfusion hu₂
  have hu₂R := hu₂
  have hu₁R := hu₁
  simp only [List.append_assoc] at hu₂R hu₁R
  have hstep : rmtreeFs
      ((root ++ osSep ++ q ++ osSep ++ t₂, (⟨data₂, false⟩ : File))
        :: (root ++ osSep ++ p ++ osSep ++ t₁, ⟨data₁, false⟩) :: s0fs)
      (root ++ osSep ++ p)
      = (root ++ osSep ++ q ++ osSep ++ t₂, ⟨data₂, false⟩)
        :: rmtreeFs ((root ++ osSep ++ p ++ osSep ++ t₁, ⟨data₁, false⟩)
            :: s0fs) (root ++ osSep ++ p) := by
    rw [rmtreeFs, rmtreeFs, List.filter_cons_of_pos]
    simp [hu₂R]
  constructor
  · rw [hstep, fsLookup_cons_ne _ _ hkne, rmtreeFs]
    apply fsLookup_filter_none
    intro f hf
    rcases List.mem_cons.mp hf with h1 | h1
    · injection h1 with _ hf1
      subst hf1
      simp [hu₁R]
    · simp [hu₁R]
      exact hclean _ h1
  · rw [hstep]
    exact fsLookup_cons_self _ _ _

/-- C8 (amended): deletion scope and frame.  After `delete p`, the object
freshly written under prefix `p` is unreadable (NotFound), while the
object written under a sibling prefix `q` remains readable with its
original bytes — provided the prefixes are separator-free and distinct,
the prefixes and generated tokens contain none of the characters the URL
parser treats specially (`?`, `#`, tab, CR, LF), and no pre-existing file
is removal-protected.  The character proviso is forced: a `?` in the
sibling prefix makes its object unreadable regardless of the delete (see
the counterexample). -/
theorem C8_deletion_scope (s : DSState) (data₁ data₂ : Bytes)
    (p q root url₁ url₂ : Str) (s₁ s₂ s₃ : DSState)
    (hroot : DS.get_filepath s.opts.datastore_url = Except.ok root)
    (hsp : '/' ∉ p) (hsq : '/' ∉ q) (hne : p ≠ q)
    (hqp : '?' ∉ p) (hhp : '#' ∉ p) (hqq : '?' ∉ q) (hhq : '#' ∉ q)
    (htp : '\t' ∉ p) (hrp : '\r' ∉ p) (hnp : '\n' ∉ p)
    (htq : '\t' ∉ q) (hrq : '\r' ∉ q) (hnq : '\n' ∉ q)
    (hqt₁ : '?' ∉ s.gen s.ctr) (hht₁ : '#' ∉ s.gen s.ctr)
    (htt₁ : '\t' ∉ s.gen s.ctr) (hrt₁ : '\r' ∉ s.gen s.ctr)
    (hnt₁ : '\n' ∉ s.gen s.ctr)
    (hqt₂ : '?' ∉ s.gen (s.ctr + 1)) (hht₂ : '#' ∉ s.gen (s.ctr + 1))
    (htt₂ : '\t' ∉ s.gen (s.ctr + 1)) (hrt₂ : '\r' ∉ s.gen (s.ctr + 1))
    (hnt₂ : '\n' ∉ s.gen (s.ctr + 1))
    (hclean : ∀ kv ∈ s.fs, kv.2.locked = false)
    (hw₁ : DS.write s data₁ (some p) = Except.ok (url₁, s₁))
    (hw₂ : DS.write s₁ data₂ (some q) = Except.ok (url₂, s₂))
    (hdel : DS.delete s₂ p = Except.ok s₃) :
    DS.read s₃.opts s₃.fs url₁ = Except.error Err.notFound
    ∧ DS.read s₃.opts s₃.fs url₂ = Except.ok data₂ := by
  rw [write_ok s data₁ (some p) root hroot] at hw₁
  injection hw₁ with h₁
  injection h₁ with hu₁ hs₁
  subst hu₁
  subst hs₁
  rw [write_ok (postWrite s data₁ (some p) root) data₂ (some q) root hroot]
    at hw₂
  injection hw₂ with h₂
  injection h₂ with hu₂ hs₂
  subst hu₂
  subst hs₂
  rw [delete_ok
    (postWrite (postWrite s data₁ (some p) root) data₂ (some q) root)
    p root hroot] at hdel
  injection hdel with h₃
  subst h₃
  have hfp₁ : DS.get_filepath (fileSlashes ++ p ++ osSep ++ s.gen s.ctr)
      = Except.ok (p ++ osSep ++ s.gen s.ctr) := by
    rw [show fileSlashes ++ p ++ osSep ++ s.gen s.ctr
        = fileSlashes ++ (p ++ osSep ++ s.gen s.ctr) by
      simp [List.append_assoc]]
    exact get_filepath_file _ (not_mem_join (by decide) hqp hqt₁)
      (not_mem_join (by decide) hhp hht₁)
      (not_mem_join (by decide) htp htt₁)
      (not_mem_join (by decide) hrp hrt₁)
      (not_mem_join (by decide) hnp hnt₁)
  have hfp₂ : DS.get_filepath (fileSlashes ++ q ++ osSep ++ s.gen (s.ctr + 1))
      = Except.ok (q ++ osSep ++ s.gen (s.ctr + 1)) := by
    rw [show fileSlashes ++ q ++ osSep ++ s.gen (s.ctr + 1)
        = fileSlashes ++ (q ++ osSep ++ s.gen (s.ctr + 1)) by
      simp [List.append_assoc]]
    exact get_filepath_file _ (not_mem_join (by decide) hqq hqt₂)
      (not_mem_join (by decide) hhq hht₂)
      (not_mem_join (by decide) htq htt₂)
      (not_mem_join (by decide) hrq hrt₂)
      (not_mem_join (by decide) hnq hnt₂)
  have hpath₁ := get_pathname_from_url_ok (o := s.opts) hroot hfp₁
  have hpath₂ := get_pathname_from_url_ok (o := s.opts) hroot hfp₂
  constructor
  · refine read_none hpath₁ ?_
    rw [show root ++ osSep ++ (p ++ osSep ++ s.gen s.ctr)
        = root ++ osSep ++ p ++ osSep ++ s.gen s.ctr by
      simp [List.append_assoc]]
    exact (fsLookup_after_delete s.fs root p q (s.gen s.ctr)
      (s.gen (s.ctr + 1)) data₁ data₂ hsp hsq hne hclean).1
  · refine read_some (f := ⟨data₂, false⟩) hpath₂ ?_
    rw [show root ++ osSep ++ (q ++ osSep ++ s.gen (s.ctr + 1))
        = root ++ osSep ++ q ++ osSep ++ s.gen (s.ctr + 1) by
      simp [List.append_assoc]]
    exact (fsLookup_after_delete s.fs root p q (s.gen s.ctr)
      (s.gen (s.ctr + 1)) data₁ data₂ hsp hsq hne hclean).2

/-- The state after writing `[1]` under prefix `runs` on the fresh store. -/
def exW₁ : DSState := postWrite exState [1] (some ("runs".data)) ("tmp/store".data)

/-- The state after also writing `[2]` under the sibling prefix `keep`. -/
def exW₂ : DSState := postWrite exW₁ [2] (some ("keep".data)) ("tmp/store".data)

/-- The state after then deleting prefix `runs`. -/
def exDel : DSState :=
  { exW₂ with
    fs := rmtreeFs exW₂.fs ("tmp/store/runs".data),
    dirs := rmtreeDirs exW₂.dirs ("tmp/store/runs".data) }

/-- Witness for C8 on the concrete store: after `delete "runs"`, the object
written under `runs` reads NotFound while the object under `keep` still
reads its original bytes. -/
theorem C8_deletion_scope_witness :
    DS.read exDel.opts exDel.fs
        ("file:///runs/0123456789abcdef0123456789abcdef".data)
      = Except.error Err.notFound
    ∧ DS.read exDel.opts exDel.fs
        ("file:///keep/ffeeddccbbaa99887766554433221100".data)
      = Except.ok [2] :=
  C8_deletion_scope exState [1] [2] ("runs".data) ("keep".data)
    ("tmp/store".data)
    ("file:///runs/0123456789abcdef0123456789abcdef".data)
    ("file:///keep/ffeeddccbbaa99887766554433221100".data)
    exW₁ exW₂ exDel (by rfl)
    (by decide) (by decide) (by decide)
    (by decide) (by decide) (by decide) (by decide)
    (by decide) (by decide) (by decide)
    (by decide) (by decide) (by decide)
    (by decide) (by decide)
    (by decide) (by decide) (by decide)
    (by decide) (by decide)
    (by decide) (by decide) (by decide)
    (by simp [exState]) (by rfl) (by rfl) (by rfl)

/-- The state after also writing `[2]` under the sibling prefix `a?b`. -/
def exW₂Bad : DSState :=
  postWrite exW₁ [2] (some ("a?b".data)) ("tmp/store".data)

/-- The state after then deleting prefix `runs`, with the `a?b` object
still on disk. -/
def exDelBad : DSState :=
  { exW₂Bad with
    fs := rmtreeFs exW₂Bad.fs ("tmp/store/runs".data),
    dirs := rmtreeDirs exW₂Bad.dirs ("tmp/store/runs".data) }

/-- Counterexample to C8 as stated: with sibling prefix `a?b` (the claim
allows any sibling `q` distinct from `p`), the object written under `a?b`
does not remain readable after `delete "runs"` — its URL query-splits at
`?` and the read fails NotFound instead of returning its bytes. -/
theorem C8_counterexample :
    DS.write exW₁ [2] (some ("a?b".data))
      = Except.ok
        (("file:///a?b/ffeeddccbbaa99887766554433221100".data), exW₂Bad)
    ∧ DS.delete exW₂Bad ("runs".data) = Except.ok exDelBad
    ∧ DS.read exDelBad.opts exDelBad.fs
        ("file:///a?b/ffeeddccbbaa99887766554433221100".data)
      = Except.error Err.notFound
    ∧ DS.read exDelBad.opts exDelBad.fs
        ("file:///a?b/ffeeddccbbaa99887766554433221100".data)
      ≠ Except.ok [2] := by
  have h3 : DS.read exDelBad.opts exDelBad.fs
      ("file:///a?b/ffeeddccbbaa99887766554433221100".data)
      = Except.error Err.notFound := by rfl
  refine ⟨by rfl, by rfl, h3, ?_⟩
  intro h
  rw [h3] at h
  exact Except.noConfusion h

/-- A filesystem holding one removal-protected file under `runs`. -/
def exLockedFs : List (Str × File) := [("tmp/store/runs/x".data, ⟨[7], true⟩)]

/-- A store whose only file under `runs` raises a permission error on
removal. -/
def exLockedState : DSState :=
  ⟨exOpts, exLockedFs, ["tmp/store/runs".data], exGen, 0⟩

/-- Counterexample to C9 as stated: a permission error occurs while removing
the subtree (`rmtreeHitsError` is true), yet `delete` returns success — the
`ignore_errors=True` flag of `shutil.rmtree` swallows every removal error,
not only the missing-target one. -/
theorem C9_counterexample :
    rmtreeHitsError exLockedState.fs
        ("tmp/store".data ++ osSep ++ "runs".data) = true
    ∧ DS.delete exLockedState ("runs".data)
        = Except.ok { exLockedState with dirs := ([] : List Str) }
    ∧ ∀ e : Err, DS.delete exLockedState ("runs".data) ≠ Except.error e := by
  have hok : DS.delete exLockedState ("runs".data)
      = Except.ok { exLockedState with dirs := ([] : List Str) } := by rfl
  refine ⟨by rfl, hok, ?_⟩
  intro e he
  rw [hok] at he
  exact Except.noConfusion he

/-- C9 amended: `delete` swallows every error arising during subtree removal
(`rmtree` is invoked with `ignore_errors=True`): whenever the configured
root URL is valid, `delete` returns successfully — even when a permission
error occurs while removing the subtree — and files whose removal failed
simply remain. -/
theorem C9_amended_delete_swallows_all (s : DSState) (rpp root : Str)
    (hroot : DS.get_filepath s.opts.datastore_url = Except.ok root) :
    DS.delete s rpp = Except.ok
      { s with fs := rmtreeFs s.fs (root ++ osSep ++ rpp),
               dirs := rmtreeDirs s.dirs (root ++ osSep ++ rpp) }
    ∧ ∀ e : Err, DS.delete s rpp ≠ Except.error e := by
  refine ⟨delete_ok s rpp root hroot, ?_⟩
  intro e he
  rw [delete_ok s rpp root hroot] at he
  exact Except.noConfusion he

/-- Witness for the amended C9 at the permission-error state. -/
theorem C9_amended_delete_swallows_all_witness :
    DS.delete exLockedState ("runs".data) = Except.ok
      { exLockedState with
        fs := rmtreeFs exLockedState.fs
          ("tmp/store".data ++ osSep ++ "runs".data),
        dirs := rmtreeDirs exLockedState.dirs
          ("tmp/store".data ++ osSep ++ "runs".data) }
    ∧ ∀ e : Err, DS.delete exLockedState ("runs".data) ≠ Except.error e :=
  C9_amended_delete_swallows_all exLockedState ("runs".data)
    ("tmp/store".data) (by rfl)
